import Mathlib

/-!
Verification of the snooker simulation (Ball.js, sketch.js, SnookerTable.js and
the Cue class) against its specification.

Embedding conventions:
* All numeric quantities are exact rationals.
* The source compares Euclidean distances and speeds that it obtains from
  Math.sqrt; the embedding compares the squared quantities instead, which is
  equivalent because sqrt is monotone and all thresholds in the source are
  nonnegative.  Definitions whose source counterpart tests a linear quantity
  against a threshold c test the squared quantity against c^2.
* Scheduled callbacks (setTimeout) are delayed tasks outside the synchronous
  per-event state change; the synchronous part of each handler is embedded.
-/

namespace Snooker

/-- A 2D vector, used for positions, velocities and forces. -/
structure Vec where
  x : ℚ
  y : ℚ
deriving DecidableEq, Repr

/-- Squared Euclidean distance between two points; embeds dist(ax, ay, bx, by)
from p5, squared. -/
def sqDist (p q : Vec) : ℚ :=
  (p.x - q.x) ^ 2 + (p.y - q.y) ^ 2

/-- Squared norm of a vector; embeds Math.sqrt(v.x*v.x + v.y*v.y), squared.
Used for the squared speed of a ball. -/
def sqNorm (v : Vec) : ℚ :=
  v.x ^ 2 + v.y ^ 2

/-- Ball kinds, from the type strings used in sketch.js initializeBalls. -/
inductive BallType where
  | cue
  | red
  | yellow
  | green
  | brown
  | blue
  | pink
  | black
deriving DecidableEq, Repr

/-- Shot types maintained by Cue.determineShotType. -/
inductive ShotType where
  | normal
  | stun
  | follow
  | draw
  | english
deriving DecidableEq, Repr

/-- Spin record stored on the cue ball by Ball.applySpinData. -/
structure SpinData where
  english : ℚ
  followDraw : ℚ
  intensity : ℚ
  shotType : ShotType
deriving DecidableEq, Repr

/-- A ball together with the dynamic state of its physics body (Ball.js).
force is the per-step force accumulator of the matter.js body, bodyId
identifies the body inside the physics world. -/
structure Ball where
  btype : BallType
  pos : Vec
  vel : Vec
  angVel : ℚ
  isPocketed : Bool
  bodyId : ℕ
  force : Vec
  spin : Option SpinData
deriving DecidableEq, Repr

/-- Pocket kind (SnookerTable.initializePockets). -/
inductive PocketType where
  | corner
  | middle
deriving DecidableEq, Repr

/-- A pocket record with center, capture radius and kind
(SnookerTable.initializePockets). -/
structure Pocket where
  x : ℚ
  y : ℚ
  radius : ℚ
  ptype : PocketType
deriving DecidableEq, Repr

/-- Center point of a pocket. -/
def pocketCenter (p : Pocket) : Vec :=
  ⟨p.x, p.y⟩

/-- velocity.x * toPocketX + velocity.y * toPocketY from Ball.checkPocket
(Ball.js lines 143-145). -/
def dotToPocket (pos vel : Vec) (p : Pocket) : ℚ :=
  vel.x * (p.x - pos.x) + vel.y * (p.y - pos.y)

/-- Base threshold fraction of the pocket radius: 0.65 for corner pockets,
0.7 for middle pockets (Ball.js lines 118-130). -/
def baseThresholdFrac : PocketType → ℚ
  | PocketType.corner => 0.65
  | PocketType.middle => 0.7

/-- Speed-dependent multiplicative reduction of the pocket threshold
(Ball.js lines 122-137), as a function of the squared speed:
speed > 10 resp. speed > 5 in the source become speedSq > 10^2 resp. > 5^2. -/
def speedFactor (pt : PocketType) (speedSq : ℚ) : ℚ :=
  match pt with
  | PocketType.corner =>
      if speedSq > (10 : ℚ) ^ 2 then 0.9
      else if speedSq > (5 : ℚ) ^ 2 then 0.95
      else 1
  | PocketType.middle =>
      if speedSq > (10 : ℚ) ^ 2 then 0.85
      else if speedSq > (5 : ℚ) ^ 2 then 0.92
      else 1

/-- Squared pocket threshold: the source computes
pocketThreshold = pocket.radius * base, then multiplies by the speed factor,
and tests d < pocketThreshold; the embedding squares the final threshold. -/
def pocketThresholdSq (p : Pocket) (speedSq : ℚ) : ℚ :=
  (p.radius * baseThresholdFrac p.ptype * speedFactor p.ptype speedSq) ^ 2

/-- One iteration of the pocket loop of Ball.checkPocket (Ball.js lines
110-154) for a ball with position pos and velocity vel: true when this pocket
captures the ball; the continue branch (moving away from the pocket at high
speed) yields false for this pocket. -/
def capturedBy (pos vel : Vec) (p : Pocket) : Bool :=
  let speedSq := sqNorm vel
  if sqDist pos (pocketCenter p) < pocketThresholdSq p speedSq then
    if dotToPocket pos vel p < -2 ∧ speedSq > (5 : ℚ) ^ 2 then false
    else true
  else false

/-- Ball.checkPocket: the loop returns true on the first pocket that captures
the ball and false after exhausting the list. -/
def checkPocket (pos vel : Vec) (pockets : List Pocket) : Bool :=
  pockets.any (capturedBy pos vel)

/-- Ball.applyProfessionalDeceleration (Ball.js lines 245-289).
rollResistanceCoefficient = 0.0012 and spinDecayRate = 0.985 are the constants
set in the Ball constructor.  Speed tests are squared: speed > c becomes
speedSq > c^2. -/
def applyProfessionalDeceleration (b : Ball) : Ball :=
  if b.isPocketed then b
  else
    let speedSq := sqNorm b.vel
    if speedSq > (0.05 : ℚ) ^ 2 then
      let decelerationFactor0 : ℚ := 1 - 0.0012
      let decelerationFactor1 : ℚ :=
        if speedSq < (2 : ℚ) ^ 2 then decelerationFactor0 - 0.0008
        else if speedSq < (5 : ℚ) ^ 2 then decelerationFactor0 - 0.0004
        else decelerationFactor0
      let decelerationFactor : ℚ := max 0.988 (min 0.9985 decelerationFactor1)
      let newVel : Vec := ⟨b.vel.x * decelerationFactor, b.vel.y * decelerationFactor⟩
      let newAng : ℚ := if |b.angVel| > 0.01 then b.angVel * 0.985 else b.angVel
      { b with vel := newVel, angVel := newAng }
    else if speedSq > 0 ∧ speedSq ≤ (0.05 : ℚ) ^ 2 then
      { b with vel := ⟨0, 0⟩, angVel := 0 }
    else b

/-- Ball.isMoving (Ball.js lines 295-299): speed > 0.05, squared. -/
def isMoving (b : Ball) : Bool :=
  decide (sqNorm b.vel > (0.05 : ℚ) ^ 2)

/-- isAnyBallMoving from sketch.js lines 556-558: some non-pocketed ball
passes Ball.isMoving. -/
def isAnyBallMoving (ballsList : List Ball) : Bool :=
  ballsList.any (fun b => !b.isPocketed && isMoving b)

/-- Cue.isAnyBallMoving (the cue controller gate used by startAiming):
pocketed balls are skipped, a ball counts as moving when speed > 0.1,
squared here. -/
def cueIsAnyBallMoving (ballsList : List Ball) : Bool :=
  ballsList.any (fun b =>
    if b.isPocketed then false
    else decide (sqNorm b.vel > (0.1 : ℚ) ^ 2))

/-- Ball.pocket (Ball.js lines 161-165) acting on the ball record and the set
of body ids present in the physics world: mark isPocketed and remove the body.
Removing an id that is not in the world is a no-op (Finset.erase). -/
def pocketBall (s : Ball × Finset ℕ) : Ball × Finset ℕ :=
  ({ s.1 with isPocketed := true }, s.2.erase s.1.bodyId)

/-- The lastPottedBalls update from handlePocketedBall (sketch.js lines
531-535): push the potted kind, then shift when the length exceeds 2. -/
def pushPotted (hist : List BallType) (t : BallType) : List BallType :=
  let h := hist ++ [t]
  if h.length > 2 then h.drop 1 else h

/-- The consecutive-colored advisory test from handlePocketedBall (sketch.js
lines 538-539): history full (length 2) and containing no red entry. -/
def consecutiveColoredFoul (hist : List BallType) : Bool :=
  hist.length == 2 && !(hist.contains BallType.red)

/-- The effect of one handlePocketedBall call (sketch.js lines 514-550) on the
potted-ball history, paired with whether this call raised the
two-consecutive-colored advisory.  The cue and red branches never touch the
history and never raise the advisory; the colored branch pushes the kind and
evaluates the advisory test. -/
def potEvent : List BallType × Bool → BallType → List BallType × Bool
  | (hist, _), BallType.cue => (hist, false)
  | (hist, _), BallType.red => (hist, false)
  | (hist, _), t =>
      let h := pushPotted hist t
      (h, consecutiveColoredFoul h)

/-- Run a sequence of pocket events starting from the initial empty history
(lastPottedBalls = [] in sketch.js line 28); the Bool is the advisory raised by
the last event. -/
def runPots (ts : List BallType) : List BallType × Bool :=
  ts.foldl potEvent ([], false)

/-- The table geometry fields used by the claims, as derived by the
SnookerTable constructor. -/
structure TableGeom where
  x : ℚ
  y : ℚ
  width : ℚ
  length : ℚ
  ballRadius : ℚ
  cornerPocketRadius : ℚ
  middlePocketRadius : ℚ
  cushionWidth : ℚ
  playAreaX : ℚ
  playAreaY : ℚ
  playAreaWidth : ℚ
  playAreaLength : ℚ
  dRadius : ℚ
  balkLineY : ℚ
  pockets : List Pocket
deriving DecidableEq, Repr

/-- The SnookerTable constructor (SnookerTable.js lines 17-66 and
initializePockets lines 180-252): all geometry derived from center (x, y) and
width. -/
def mkTable (x y width : ℚ) : TableGeom :=
  let length := width * 2
  let ballRadius := width / 68
  let cornerPocketRadius := ballRadius * 3.27
  let middlePocketRadius := ballRadius * 3.96
  let cushionWidth := width * 0.06 - 25 - 15
  let playAreaX := x - width / 2 + cushionWidth
  let playAreaY := y - length / 2 + cushionWidth
  let playAreaWidth := width - 2 * cushionWidth
  let playAreaLength := length - 2 * cushionWidth
  let dRadius := playAreaWidth / 6.1
  let balkLineY := playAreaY + playAreaLength * 0.2927
  let cornerPocketOffset := cornerPocketRadius * 0.3
  { x := x, y := y, width := width, length := length, ballRadius := ballRadius,
    cornerPocketRadius := cornerPocketRadius,
    middlePocketRadius := middlePocketRadius,
    cushionWidth := cushionWidth,
    playAreaX := playAreaX, playAreaY := playAreaY,
    playAreaWidth := playAreaWidth, playAreaLength := playAreaLength,
    dRadius := dRadius, balkLineY := balkLineY,
    pockets :=
      [ ⟨x - width / 2 + cornerPocketOffset, y - length / 2 + cornerPocketOffset,
          cornerPocketRadius, PocketType.corner⟩,
        ⟨x + width / 2 - cornerPocketOffset, y - length / 2 + cornerPocketOffset,
          cornerPocketRadius, PocketType.corner⟩,
        ⟨x - width / 2 + cornerPocketOffset, y + length / 2 - cornerPocketOffset,
          cornerPocketRadius, PocketType.corner⟩,
        ⟨x + width / 2 - cornerPocketOffset, y + length / 2 - cornerPocketOffset,
          cornerPocketRadius, PocketType.corner⟩,
        ⟨x - width / 2, y, middlePocketRadius, PocketType.middle⟩,
        ⟨x + width / 2, y, middlePocketRadius, PocketType.middle⟩ ] }

/-- SnookerTable.isInDZone (lines 952-962): within the D radius of the D
center and on the D side of the balk line; the distance test is squared. -/
def isInDZone (t : TableGeom) (x y : ℚ) : Bool :=
  decide (sqDist ⟨x, y⟩ ⟨t.x, t.balkLineY⟩ ≤ t.dRadius ^ 2 ∧ y ≥ t.balkLineY)

/-- The position generated for triangle cell (row, col) by
SnookerTable.getRedBallPositions (lines 967-984). -/
def redBallPos (t : TableGeom) (row col : ℕ) : Vec :=
  ⟨t.x + ((col : ℚ) - (row : ℚ) / 2) * (t.ballRadius * 2.05),
   (t.y + t.playAreaLength * 0.25) + (row : ℚ) * (t.ballRadius * 2.05) * 0.866⟩

/-- One row of the red triangle: columns 0..row. -/
def redBallRow (t : TableGeom) (row : ℕ) : List Vec :=
  (List.range (row + 1)).map (fun col => redBallPos t row col)

/-- SnookerTable.getRedBallPositions: the nested row/col loops in row-major
order. -/
def getRedBallPositions (t : TableGeom) : List Vec :=
  (List.range 5).flatMap (fun row => redBallRow t row)

/-- isValidBallPosition (sketch.js lines 458-478).  The source iterates the
global balls array skipping ballToPlace, pocketed balls and the cue ball; the
argument others is that array with ballToPlace and the cue ball already
removed, so only the isPocketed skip remains.  Distance tests are squared. -/
def isValidBallPosition (t : TableGeom) (x y : ℚ) (others : List Ball) : Bool :=
  (others.all (fun b =>
      if b.isPocketed then true
      else decide (¬(sqDist ⟨x, y⟩ b.pos < (t.ballRadius * 2.5) ^ 2)))) &&
  (t.pockets.all (fun p =>
      decide (¬(sqDist ⟨x, y⟩ (pocketCenter p) < (p.radius + t.ballRadius * 2) ^ 2))))

/-- The per-ball placement loop of setupRandomReds / setupRandomAll (sketch.js
lines 404-422): up to 100 attempts, each drawing the next random point from
the sample stream, stopping at the first point that passes
isValidBallPosition; none when all 100 attempts fail. -/
def tryPlaceBall (t : TableGeom) (others : List Ball) (samples : ℕ → ℚ × ℚ) :
    Option (ℚ × ℚ) :=
  (List.range 100).findSome? (fun i =>
    let p := samples i
    if isValidBallPosition t p.1 p.2 others then some p else none)

/-- maxPower of the Cue constructor. -/
def cueMaxPower : ℚ := 0.02

/-- maxPullback of the Cue constructor. -/
def cueMaxPullback : ℚ := 100

/-- spinTransferEfficiency of the Cue constructor. -/
def spinTransferEfficiency : ℚ := 0.85

/-- The cue controller state (Cue class fields used by the claims).  The aim
angle enters the shot computation only through cos(angle) and sin(angle), so
it is represented by the direction cosines (aimDirX, aimDirY), a unit
vector. -/
structure CueRec where
  isAiming : Bool
  isVisible : Bool
  power : ℚ
  pullback : ℚ
  aimDirX : ℚ
  aimDirY : ℚ
  contactX : ℚ
  contactY : ℚ
  shotType : ShotType
deriving DecidableEq, Repr

/-- Cue.stopAiming. -/
def stopAiming (c : CueRec) : CueRec :=
  { c with isAiming := false, pullback := 0 }

/-- Cue.hide. -/
def cueHide (c : CueRec) : CueRec :=
  { c with isVisible := false, isAiming := false, pullback := 0 }

/-- Cue.applyProfessionalSpin.  The source computes
spinIntensity = sqrt(fx^2 + fy^2) * 200 where the caller passes
fx = cos(angle) * F and fy = sin(angle) * F, so sqrt(fx^2 + fy^2) = |F|;
mag is that magnitude |F|.  The delayed english-curve setTimeout is a
scheduled task, not part of the synchronous update. -/
def applyProfessionalSpin (c : CueRec) (fx fy mag : ℚ) (b : Ball) : Ball :=
  let b1 := { b with force := ⟨b.force.x + fx, b.force.y + fy⟩ }
  let horizontalSpin := c.contactX * spinTransferEfficiency
  let verticalSpin := c.contactY * spinTransferEfficiency
  let spinIntensity := mag * 200
  let englishSpin := horizontalSpin * spinIntensity
  let followDrawSpin := verticalSpin * spinIntensity
  let totalSpin := englishSpin + followDrawSpin * 0.6
  { b1 with angVel := totalSpin,
            spin := some ⟨horizontalSpin, verticalSpin, spinIntensity, c.shotType⟩ }

/-- Cue.shoot: guarded by isAiming, a non-pocketed cue ball and pullback > 10;
the force magnitude is (pullback / maxPullback) * power * maxPower and the
force direction the aim angle; afterwards the cue stops aiming and is hidden.
When the guard fails nothing happens (the cue ball argument may also be null,
modeled by none). -/
def shoot (c : CueRec) (ob : Option Ball) : CueRec × Option Ball :=
  match ob with
  | none => (c, none)
  | some b =>
      if c.isAiming = true ∧ b.isPocketed = false ∧ c.pullback > 10 then
        let forceMagnitude := (c.pullback / cueMaxPullback) * c.power * cueMaxPower
        let baseForceX := c.aimDirX * forceMagnitude
        let baseForceY := c.aimDirY * forceMagnitude
        let b1 := applyProfessionalSpin c baseForceX baseForceY |forceMagnitude| b
        ({ stopAiming c with isVisible := false }, some b1)
      else (c, some b)

/-- Cue.startAiming: requires a non-pocketed cue ball and that the cue
controller gate cueIsAnyBallMoving reports no motion. -/
def startAiming (c : CueRec) (ob : Option Ball) (ballsList : List Ball) : CueRec :=
  match ob with
  | none => c
  | some b =>
      if b.isPocketed = false ∧ cueIsAnyBallMoving ballsList = false then
        { c with isAiming := true, isVisible := true, pullback := 0 }
      else c

/-- The game-state globals of sketch.js used by the claims: the non-cue balls,
the cue ball (null until created), the set of body ids in the physics world,
the cue controller and the placement flags. -/
structure GameState where
  balls : List Ball
  cueBall : Option Ball
  world : Finset ℕ
  cue : CueRec
  cueBallPlaced : Bool
  placingCueBall : Bool
  lastPottedBalls : List BallType

/-- The full balls array of sketch.js (non-cue balls plus the cue ball). -/
def allBalls (s : GameState) : List Ball :=
  s.balls ++ s.cueBall.toList

/-- Ball.respawn at (x, y): clear isPocketed, fresh body at the position with
zero velocity and angular velocity (the fresh matter.js body is modeled by
reusing the same body id with a cleared force accumulator). -/
def respawnAt (b : Ball) (x y : ℚ) : Ball :=
  { b with pos := ⟨x, y⟩, vel := ⟨0, 0⟩, angVel := 0, isPocketed := false,
           force := ⟨0, 0⟩ }

/-- The cue branch of handlePocketedBall (sketch.js lines 515-521): pocket the
cue ball, clear cueBallPlaced, enter placingCueBall, hide the cue. -/
def handleCuePocketed (s : GameState) : GameState :=
  match s.cueBall with
  | none => s
  | some b =>
      { s with cueBall := some { b with isPocketed := true },
               world := s.world.erase b.bodyId,
               cueBallPlaced := false,
               placingCueBall := true,
               cue := cueHide s.cue }

/-- mouseReleased (sketch.js lines 691-695): shoot when the cue is aiming. -/
def mouseReleased (s : GameState) : GameState :=
  if s.cue.isAiming = true then
    let r := shoot s.cue s.cueBall
    { s with cue := r.1, cueBall := r.2 }
  else s

/-- mousePressed (sketch.js lines 631-660).  The placement branch requires
placingCueBall, the D zone and isValidBallPosition (checked against the balls
array minus the cue ball, which is both ballToPlace and the cue ball there);
the aiming branch requires cueBallPlaced, not placingCueBall and the game-loop
gate isAnyBallMoving to be quiet.  The cue.updateAngle call after placement
only updates the aim angle toward the mouse and is omitted. -/
def mousePressed (t : TableGeom) (s : GameState) (mx my : ℚ) : GameState :=
  if s.placingCueBall = true ∧ isInDZone t mx my = true then
    match s.cueBall with
    | none => s
    | some b =>
        if isValidBallPosition t mx my s.balls = true then
          { s with cueBall := some (respawnAt b mx my),
                   world := insert b.bodyId s.world,
                   cueBallPlaced := true,
                   placingCueBall := false,
                   cue := { s.cue with isVisible := true } }
        else s
  else if s.cueBallPlaced = true ∧ s.placingCueBall = false
          ∧ isAnyBallMoving (allBalls s) = false then
    { s with cue := startAiming s.cue s.cueBall (allBalls s) }
  else s

/-- Reachable-state invariant of the sketch.js state machine: while the cue
ball is being placed the cue is never aiming (every transition that sets
placingCueBall also stops aiming, and aiming can only start when
placingCueBall is false). -/
def PlacingInv (s : GameState) : Prop :=
  s.placingCueBall = true → s.cue.isAiming = false

/-! Concrete fixtures used to evaluate the definitions on closed inputs. -/

/-- A non-pocketed red ball rolling just above the 0.05 stopping threshold. -/
def slowRollingBall : Ball :=
  ⟨BallType.red, ⟨0, 0⟩, ⟨0.0501, 0⟩, 0, false, 0, ⟨0, 0⟩, none⟩

/-- A non-pocketed ball with speed exactly 0.05 (squared speed 0.0025) and a
nonzero angular velocity. -/
def restingBall : Ball :=
  ⟨BallType.red, ⟨0, 0⟩, ⟨0.03, 0.04⟩, 7, false, 1, ⟨0, 0⟩, none⟩

/-- A corner pocket at the origin with capture radius 10. -/
def cornerPocketEx : Pocket :=
  ⟨0, 0, 10, PocketType.corner⟩

/-- A non-pocketed ball whose speed 0.07 lies strictly between the two moving
thresholds 0.05 and 0.1. -/
def slowBall10 : Ball :=
  ⟨BallType.red, ⟨0, 0⟩, ⟨0.07, 0⟩, 0, false, 2, ⟨0, 0⟩, none⟩

/-- A non-pocketed ball faster than both moving thresholds. -/
def fastBall10 : Ball :=
  ⟨BallType.red, ⟨0, 0⟩, ⟨0.2, 0⟩, 0, false, 3, ⟨0, 0⟩, none⟩

/-- The table constructed by sketch.js setup: new SnookerTable(1100/2, 820/2, 400). -/
def tableEx : TableGeom := mkTable 550 410 400

/-- The left middle pocket of tableEx. -/
def middlePocketLeftEx : Pocket :=
  ⟨350, 410, 400 / 68 * 3.96, PocketType.middle⟩

/-- A cue ball at rest on the table. -/
def cueBallEx : Ball :=
  ⟨BallType.cue, ⟨500, 300⟩, ⟨0, 0⟩, 0, false, 21, ⟨0, 0⟩, none⟩

/-- A hidden, non-aiming cue controller. -/
def cueRecEx : CueRec :=
  ⟨false, false, 0.5, 0, 1, 0, 0, 0, ShotType.normal⟩

/-- A game state in cue-ball placement mode with a quiet cue. -/
def gameStateEx : GameState :=
  ⟨[], some cueBallEx, {21}, cueRecEx, false, true, []⟩

/-- An aiming cue with pullback 50 and aim direction along the x axis. -/
def cueAimingEx : CueRec :=
  ⟨true, true, 0.5, 50, 1, 0, 0, 0, ShotType.normal⟩

end Snooker

/-! Theorems. -/

namespace Snooker

theorem capturedBy_eq_true (pos vel : Vec) (p : Pocket) :
    capturedBy pos vel p = true ↔
      sqDist pos (pocketCenter p) < pocketThresholdSq p (sqNorm vel)
      ∧ ¬(dotToPocket pos vel p < -2 ∧ sqNorm vel > (5 : ℚ) ^ 2) := by
  simp only [capturedBy]
  split_ifs with h1 h2
  · simp [h1, h2]
  · simp [h1, h2]
  · simp [h1]

/-- Claim C3 counterexample: corner pocket of radius 10 at the origin, fixed
velocity (12, 0) (squared speed 144, so the away-skip can fire).  The capture
check succeeds at (-5, 0) (squared distance 25, moving toward the pocket) but
fails at the strictly closer point (1/2, 0) (squared distance 1/4), because
there the ball moves away from the pocket center with dot product -6 < -2 at
speed above 5 — decreasing the distance converts capture to no-capture. -/
theorem checkPocket_not_distance_monotone :
    sqDist ⟨1 / 2, 0⟩ (pocketCenter cornerPocketEx)
        < sqDist ⟨-5, 0⟩ (pocketCenter cornerPocketEx)
    ∧ checkPocket ⟨-5, 0⟩ ⟨12, 0⟩ [cornerPocketEx] = true
    ∧ checkPocket ⟨1 / 2, 0⟩ ⟨12, 0⟩ [cornerPocketEx] = false := by
  refine ⟨by norm_num [sqDist, pocketCenter, cornerPocketEx], ?_, ?_⟩ <;>
    norm_num [checkPocket, capturedBy, pocketThresholdSq, baseThresholdFrac,
      speedFactor, sqDist, sqNorm, dotToPocket, pocketCenter, cornerPocketEx]

/-- Claim C3 as amended: per pocket and fixed velocity, the capture check is
monotone in distance whenever the speed is at most 5 (squared speed at most
25), i.e. whenever the away-skip branch cannot fire: if the check is true at
some squared distance, it is true at every smaller squared distance. -/
theorem capturedBy_monotone_low_speed (p : Pocket) (pos1 pos2 vel : Vec)
    (hspeed : sqNorm vel ≤ (5 : ℚ) ^ 2)
    (hlt : sqDist pos2 (pocketCenter p) < sqDist pos1 (pocketCenter p))
    (hcap : capturedBy pos1 vel p = true) :
    capturedBy pos2 vel p = true := by
  have hns : ¬(sqNorm vel > (5 : ℚ) ^ 2) := not_lt.mpr hspeed
  rw [capturedBy_eq_true] at hcap ⊢
  exact ⟨lt_trans hlt hcap.1, fun h => hns h.2⟩

theorem capturedBy_monotone_low_speed_witness :
    capturedBy ⟨1, 0⟩ ⟨1, 0⟩ cornerPocketEx = true :=
  capturedBy_monotone_low_speed cornerPocketEx ⟨3, 0⟩ ⟨1, 0⟩ ⟨1, 0⟩
    (by norm_num [sqNorm])
    (by norm_num [sqDist, pocketCenter, cornerPocketEx])
    (by norm_num [capturedBy, pocketThresholdSq, baseThresholdFrac,
      speedFactor, sqDist, sqNorm, dotToPocket, pocketCenter, cornerPocketEx])

/-- Claim C4: characterization of the capture check.  The check succeeds iff
some pocket has squared center distance below the squared threshold
(radius x base fraction x speed factor), where the base fraction is 0.65 for
corner and 0.7 for middle pockets, the speed factor is 1 at speeds up to 5 and
lies in [0.85, 0.95] above (strictly smaller above speed 10 than between 5 and
10), except that a pocket whose direction dotted with the velocity is below -2
while the speed exceeds 5 does not capture even within the threshold. -/
theorem checkPocket_threshold_characterization (pos vel : Vec) (pockets : List Pocket) :
    (checkPocket pos vel pockets = true ↔
      ∃ p ∈ pockets,
        sqDist pos (pocketCenter p)
            < (p.radius * baseThresholdFrac p.ptype * speedFactor p.ptype (sqNorm vel)) ^ 2
          ∧ ¬(dotToPocket pos vel p < -2 ∧ sqNorm vel > (5 : ℚ) ^ 2))
    ∧ (∀ pt, sqNorm vel ≤ (5 : ℚ) ^ 2 → speedFactor pt (sqNorm vel) = 1)
    ∧ (∀ pt, (5 : ℚ) ^ 2 < sqNorm vel →
        0.85 ≤ speedFactor pt (sqNorm vel) ∧ speedFactor pt (sqNorm vel) ≤ 0.95)
    ∧ (∀ (pt : PocketType) (s1 s2 : ℚ), (5 : ℚ) ^ 2 < s1 → s1 ≤ (10 : ℚ) ^ 2 →
        (10 : ℚ) ^ 2 < s2 → speedFactor pt s2 < speedFactor pt s1) := by
  refine ⟨?_, ?_, ?_, ?_⟩
  · rw [checkPocket, List.any_eq_true]
    constructor
    · rintro ⟨p, hp, hcap⟩
      exact ⟨p, hp, (capturedBy_eq_true pos vel p).mp hcap⟩
    · rintro ⟨p, hp, hcond⟩
      exact ⟨p, hp, (capturedBy_eq_true pos vel p).mpr hcond⟩
  · intro pt h
    have h10 : ¬(sqNorm vel > (10 : ℚ) ^ 2) := by intro hgt; nlinarith
    have h5 : ¬(sqNorm vel > (5 : ℚ) ^ 2) := not_lt.mpr h
    cases pt <;> simp [speedFactor, h10, h5]
  · intro pt h
    by_cases h10 : sqNorm vel > (10 : ℚ) ^ 2 <;>
      cases pt <;> simp [speedFactor, h10, h] <;> norm_num
  · intro pt s1 s2 h1 h2 h3
    have hn1 : ¬(s1 > (10 : ℚ) ^ 2) := not_lt.mpr h2
    cases pt <;> simp [speedFactor, hn1, h1, h3] <;> norm_num

theorem checkPocket_threshold_characterization_witness :
    checkPocket ⟨3, 0⟩ ⟨1, 0⟩ [cornerPocketEx] = true :=
  (checkPocket_threshold_characterization ⟨3, 0⟩ ⟨1, 0⟩ [cornerPocketEx]).1.mpr
    ⟨cornerPocketEx, by simp,
      by norm_num [sqDist, sqNorm, dotToPocket, pocketCenter, baseThresholdFrac,
        speedFactor, cornerPocketEx]⟩

theorem redBallRow_get (t : TableGeom) (row col : ℕ) (hc : col ≤ row) :
    (redBallRow t row).get? col = some (redBallPos t row col) := by
  have h : (List.range (row + 1))[col]? = some col :=
    List.getElem?_range (Nat.lt_succ_of_le hc)
  simp [redBallRow, List.get?_eq_getElem?, List.getElem?_map, h]

theorem redBallPos_adjacent_sqDist (t : TableGeom) (row col col2 : ℕ)
    (hcol : (col2 : ℚ) = (col : ℚ) ∨ (col2 : ℚ) = (col : ℚ) + 1) :
    sqDist (redBallPos t row col) (redBallPos t (row + 1) col2)
      = (2.05 * t.ballRadius) ^ 2 * (999956 / 1000000) := by
  rcases hcol with h | h <;>
    · simp only [sqDist, redBallPos]
      push_cast
      rw [h]
      ring

/-- Claim C6: the red-rack generator returns exactly 15 positions, arranged as
the concatenation of 5 rows where row r has r + 1 entries (apex row 0 has
exactly 1, base row 4 has exactly 5); for a positive ball radius the rows have
strictly increasing y, and each position is at squared distance
(2.05 x ballRadius)^2 x 0.999956 from its two row-adjacent neighbours in the
next row, hence within a relative epsilon of 1/10000 of (2.05 x ballRadius)^2
(the source uses 0.866 for sin 60, and 0.25 + 0.866^2 = 0.999956). -/
theorem triangle_rack_geometry (t : TableGeom) :
    (getRedBallPositions t).length = 15
    ∧ getRedBallPositions t =
        redBallRow t 0 ++ (redBallRow t 1 ++ (redBallRow t 2
          ++ (redBallRow t 3 ++ redBallRow t 4)))
    ∧ (redBallRow t 0).length = 1
    ∧ (redBallRow t 4).length = 5
    ∧ (0 < t.ballRadius → ∀ row : ℕ, row < 4 →
        (redBallPos t row 0).y < (redBallPos t (row + 1) 0).y)
    ∧ (∀ row col : ℕ, row < 4 → col ≤ row →
        (redBallRow t row).get? col = some (redBallPos t row col)
        ∧ |sqDist (redBallPos t row col) (redBallPos t (row + 1) col)
              - (2.05 * t.ballRadius) ^ 2| ≤ (2.05 * t.ballRadius) ^ 2 / 10000
        ∧ |sqDist (redBallPos t row col) (redBallPos t (row + 1) (col + 1))
              - (2.05 * t.ballRadius) ^ 2| ≤ (2.05 * t.ballRadius) ^ 2 / 10000) := by
  refine ⟨rfl, rfl, rfl, rfl, ?_, ?_⟩
  · intro hr row _
    simp only [redBallPos]
    push_cast
    nlinarith [hr]
  · intro row col _ hc
    have hsq : (0 : ℚ) ≤ (2.05 * t.ballRadius) ^ 2 := sq_nonneg _
    refine ⟨redBallRow_get t row col hc, ?_, ?_⟩
    · rw [redBallPos_adjacent_sqDist t row col col (Or.inl rfl), abs_le]
      constructor <;> nlinarith
    · rw [redBallPos_adjacent_sqDist t row col (col + 1) (Or.inr (by push_cast; ring)), abs_le]
      constructor <;> nlinarith

theorem triangle_rack_geometry_witness :
    (getRedBallPositions tableEx).length = 15
    ∧ (redBallPos tableEx 0 0).y < (redBallPos tableEx 1 0).y := by
  refine ⟨(triangle_rack_geometry tableEx).1, ?_⟩
  exact (triangle_rack_geometry tableEx).2.2.2.2.1
    (by norm_num [tableEx, mkTable]) 0 (by norm_num)

theorem list_findSome_congr {α β : Type} (f g : α → Option β) :
    ∀ l : List α, (∀ a ∈ l, f a = g a) → l.findSome? f = l.findSome? g := by
  intro l
  induction l with
  | nil => intro _; rfl
  | cons a l ih =>
      intro h
      rw [List.findSome?_cons, List.findSome?_cons, h a (by simp),
        ih (fun b hb => h b (by simp [hb]))]

/-- Claim C7: whenever the placement-validity test accepts a point, that point
is at squared distance at least (2.5 x ballRadius)^2 from every non-pocketed
ball of the checked list (the balls array minus the ball being placed and the
cue ball) and at squared distance at least (pocket radius + 2 x ballRadius)^2
from every pocket center; the placement loop only ever returns a point that
the validity test accepts, drawn from the first 100 random samples, and its
outcome is determined by those first 100 samples (at most 100 retries). -/
theorem rejection_sampling_spacing (t : TableGeom) (others : List Ball) :
    (∀ x y : ℚ, isValidBallPosition t x y others = true →
        (∀ b ∈ others, b.isPocketed = false →
            (t.ballRadius * 2.5) ^ 2 ≤ sqDist ⟨x, y⟩ b.pos)
        ∧ (∀ p ∈ t.pockets,
            (p.radius + t.ballRadius * 2) ^ 2 ≤ sqDist ⟨x, y⟩ (pocketCenter p)))
    ∧ (∀ (samples : ℕ → ℚ × ℚ) (pt : ℚ × ℚ),
        tryPlaceBall t others samples = some pt →
          isValidBallPosition t pt.1 pt.2 others = true ∧ ∃ i < 100, samples i = pt)
    ∧ (∀ s1 s2 : ℕ → ℚ × ℚ, (∀ i < 100, s1 i = s2 i) →
        tryPlaceBall t others s1 = tryPlaceBall t others s2) := by
  refine ⟨?_, ?_, ?_⟩
  · intro x y h
    rw [isValidBallPosition, Bool.and_eq_true, List.all_eq_true, List.all_eq_true] at h
    obtain ⟨h1, h2⟩ := h
    constructor
    · intro b hb hbp
      have hx := h1 b hb
      rw [hbp] at hx
      simp only [Bool.false_eq_true, if_false, decide_eq_true_eq, not_lt] at hx
      exact hx
    · intro p hp
      have hx := h2 p hp
      simp only [decide_eq_true_eq, not_lt] at hx
      exact hx
  · intro samples pt h
    rw [tryPlaceBall] at h
    obtain ⟨i, hi, hfi⟩ := List.exists_of_findSome?_eq_some h
    rw [List.mem_range] at hi
    by_cases hv : isValidBallPosition t (samples i).1 (samples i).2 others = true
    · rw [if_pos hv] at hfi
      obtain rfl : samples i = pt := by simpa using hfi
      exact ⟨hv, i, hi, rfl⟩
    · rw [if_neg hv] at hfi
      cases hfi
  · intro s1 s2 hagree
    rw [tryPlaceBall, tryPlaceBall]
    apply list_findSome_congr
    intro i hi
    rw [hagree i (List.mem_range.mp hi)]

theorem rejection_sampling_spacing_witness :
    (middlePocketLeftEx.radius + tableEx.ballRadius * 2) ^ 2
      ≤ sqDist ⟨550, 410⟩ (pocketCenter middlePocketLeftEx) := by
  have h := ((rejection_sampling_spacing tableEx []).1 550 410
    (by norm_num [isValidBallPosition, tableEx, mkTable, sqDist, pocketCenter])).2
  exact h middlePocketLeftEx (by norm_num [tableEx, mkTable, middlePocketLeftEx])

theorem shoot_some (c : CueRec) (b : Ball) :
    shoot c (some b) =
      if c.isAiming = true ∧ b.isPocketed = false ∧ c.pullback > 10 then
        ({ stopAiming c with isVisible := false },
          some (applyProfessionalSpin c
            (c.aimDirX * ((c.pullback / cueMaxPullback) * c.power * cueMaxPower))
            (c.aimDirY * ((c.pullback / cueMaxPullback) * c.power * cueMaxPower))
            |(c.pullback / cueMaxPullback) * c.power * cueMaxPower| b))
      else (c, some b) := rfl

theorem placingInv_handleCuePocketed (s : GameState) (h : PlacingInv s) :
    PlacingInv (handleCuePocketed s) := by
  rw [handleCuePocketed]
  cases hcb : s.cueBall with
  | none => exact h
  | some b => exact fun _ => rfl

theorem placingInv_mouseReleased (s : GameState) (h : PlacingInv s) :
    PlacingInv (mouseReleased s) := by
  rw [mouseReleased]
  split_ifs with ha
  · intro hp
    exact absurd (h hp) (by simp [ha])
  · exact h

theorem placingInv_mousePressed (t : TableGeom) (s : GameState) (mx my : ℚ)
    (h : PlacingInv s) : PlacingInv (mousePressed t s mx my) := by
  rw [mousePressed]
  by_cases h1 : s.placingCueBall = true ∧ isInDZone t mx my = true
  · rw [if_pos h1]
    cases hcb : s.cueBall with
    | none => exact h
    | some b =>
        intro hp
        by_cases hv : isValidBallPosition t mx my s.balls = true
        · simp [hv] at hp
        · simp only [hv, if_false] at hp ⊢
          exact h hp
  · rw [if_neg h1]
    by_cases h2 : s.cueBallPlaced = true ∧ s.placingCueBall = false
        ∧ isAnyBallMoving (allBalls s) = false
    · rw [if_pos h2]
      intro hp
      exact absurd hp (by simp [h2.2.1])
    · rw [if_neg h2]
      exact h

/-- Claim C5: when the cue ball is pocketed the handler marks it pocketed,
removes its body from the world, clears cueBallPlaced, enters placingCueBall
and hides the cue (which also stops aiming, so the placing invariant holds in
the new state); and in any state satisfying the reachable-state invariant
(placing implies not aiming — preserved by every modeled transition), a
pointer-up shot attempt while placingCueBall is true leaves the state, and in
particular every ball velocity, unchanged. -/
theorem cue_pocket_event (s : GameState) (b : Ball)
    (hcb : s.cueBall = some b) (hinv : PlacingInv s) :
    ((handleCuePocketed s).cueBall = some { b with isPocketed := true }
      ∧ (handleCuePocketed s).world = s.world.erase b.bodyId
      ∧ (handleCuePocketed s).cueBallPlaced = false
      ∧ (handleCuePocketed s).placingCueBall = true
      ∧ (handleCuePocketed s).cue.isVisible = false
      ∧ PlacingInv (handleCuePocketed s))
    ∧ (s.placingCueBall = true → mouseReleased s = s) := by
  constructor
  · rw [handleCuePocketed, hcb]
    exact ⟨rfl, rfl, rfl, rfl, rfl, fun _ => rfl⟩
  · intro hpl
    have hna : s.cue.isAiming = false := hinv hpl
    rw [mouseReleased, if_neg (by simp [hna])]

theorem cue_pocket_event_witness :
    (handleCuePocketed gameStateEx).placingCueBall = true
    ∧ mouseReleased gameStateEx = gameStateEx := by
  have h := cue_pocket_event gameStateEx cueBallEx rfl (fun _ => rfl)
  exact ⟨h.1.2.2.2.1, h.2 rfl⟩

/-- Claim C8: the shot applies a force to the cue ball iff the cue is aiming,
the cue ball exists (is not null) and is not pocketed, and pullback > 10; when
it fires, the applied force increment is
(pullback / maxPullback) x power x maxPower times the unit aim direction, so
its squared magnitude is exactly the square of that scalar; otherwise the cue
ball (and the cue) is left unchanged.  The hypotheses state that the aim
direction is a unit vector (it is cos/sin of the aim angle) and that the power
respects its documented lower bound 0.1 (Cue.adjustPower clamps to
[0.1, 1]). -/
theorem shoot_fire_condition (c : CueRec) (b : Ball)
    (hdir : c.aimDirX ^ 2 + c.aimDirY ^ 2 = 1) (hpow : 0.1 ≤ c.power) :
    shoot c none = (c, none)
    ∧ (((shoot c (some b)).2.getD b).force ≠ b.force
        ↔ (c.isAiming = true ∧ b.isPocketed = false ∧ c.pullback > 10))
    ∧ ((c.isAiming = true ∧ b.isPocketed = false ∧ c.pullback > 10) →
        ((shoot c (some b)).2.getD b).force
            = ⟨b.force.x + c.aimDirX * ((c.pullback / cueMaxPullback) * c.power * cueMaxPower),
               b.force.y + c.aimDirY * ((c.pullback / cueMaxPullback) * c.power * cueMaxPower)⟩
        ∧ (((shoot c (some b)).2.getD b).force.x - b.force.x) ^ 2
            + (((shoot c (some b)).2.getD b).force.y - b.force.y) ^ 2
            = ((c.pullback / cueMaxPullback) * c.power * cueMaxPower) ^ 2)
    ∧ (¬(c.isAiming = true ∧ b.isPocketed = false ∧ c.pullback > 10) →
        shoot c (some b) = (c, some b)) := by
  by_cases hf : c.isAiming = true ∧ b.isPocketed = false ∧ c.pullback > 10
  · have hFpos : 0 < (c.pullback / cueMaxPullback) * c.power * cueMaxPower := by
      rw [cueMaxPullback, cueMaxPower]
      have h10 : (10 : ℚ) < c.pullback := hf.2.2
      positivity
    have hforce : ((shoot c (some b)).2.getD b).force
        = ⟨b.force.x + c.aimDirX * ((c.pullback / cueMaxPullback) * c.power * cueMaxPower),
           b.force.y + c.aimDirY * ((c.pullback / cueMaxPullback) * c.power * cueMaxPower)⟩ := by
      rw [shoot_some, if_pos hf]
      rfl
    refine ⟨rfl, ?_, fun _ => ⟨hforce, ?_⟩, fun hnf => absurd hf hnf⟩
    · constructor
      · intro _
        exact hf
      · intro _ heq
        rw [hforce] at heq
        have hx : b.force.x + c.aimDirX * ((c.pullback / cueMaxPullback) * c.power * cueMaxPower)
            = b.force.x := congrArg Vec.x heq
        have hy : b.force.y + c.aimDirY * ((c.pullback / cueMaxPullback) * c.power * cueMaxPower)
            = b.force.y := congrArg Vec.y heq
        have hx0 : c.aimDirX * ((c.pullback / cueMaxPullback) * c.power * cueMaxPower) = 0 := by
          linarith
        have hy0 : c.aimDirY * ((c.pullback / cueMaxPullback) * c.power * cueMaxPower) = 0 := by
          linarith
        have hdx : c.aimDirX = 0 := by
          rcases mul_eq_zero.mp hx0 with h | h
          · exact h
          · exact absurd h (ne_of_gt hFpos)
        have hdy : c.aimDirY = 0 := by
          rcases mul_eq_zero.mp hy0 with h | h
          · exact h
          · exact absurd h (ne_of_gt hFpos)
        rw [hdx, hdy] at hdir
        norm_num at hdir
    · rw [hforce]
      show (b.force.x + c.aimDirX * ((c.pullback / cueMaxPullback) * c.power * cueMaxPower)
            - b.force.x) ^ 2
          + (b.force.y + c.aimDirY * ((c.pullback / cueMaxPullback) * c.power * cueMaxPower)
            - b.force.y) ^ 2
          = ((c.pullback / cueMaxPullback) * c.power * cueMaxPower) ^ 2
      linear_combination ((c.pullback / cueMaxPullback) * c.power * cueMaxPower) ^ 2 * hdir
  · have hun : shoot c (some b) = (c, some b) := by
      rw [shoot_some, if_neg hf]
    refine ⟨rfl, ?_, fun hcon => absurd hcon hf, fun _ => hun⟩
    rw [hun]
    simp only [Option.getD_some]
    exact ⟨fun hne => absurd rfl hne, fun hcon => absurd hcon hf⟩

theorem shoot_fire_condition_witness :
    ((shoot cueAimingEx (some cueBallEx)).2.getD cueBallEx).force
      = ⟨cueBallEx.force.x + cueAimingEx.aimDirX
            * ((cueAimingEx.pullback / cueMaxPullback) * cueAimingEx.power * cueMaxPower),
         cueBallEx.force.y + cueAimingEx.aimDirY
            * ((cueAimingEx.pullback / cueMaxPullback) * cueAimingEx.power * cueMaxPower)⟩ :=
  ((shoot_fire_condition cueAimingEx cueBallEx
      (by norm_num [cueAimingEx]) (by norm_num [cueAimingEx])).2.2.1
    (by norm_num [cueAimingEx, cueBallEx])).1


theorem list_any_congr {α : Type} (f g : α → Bool) :
    ∀ l : List α, (∀ a ∈ l, f a = g a) → l.any f = l.any g := by
  intro l
  induction l with
  | nil => intro _; rfl
  | cons a l ih =>
      intro h
      simp only [List.any_cons, h a (by simp)]
      rw [ih (fun b hb => h b (by simp [hb]))]

/-- Claim C9: pocketing is idempotent.  Applying Ball.pocket twice to a ball
record and the physics world yields the same state as applying it once,
because marking isPocketed is absorbing and removing a missing body from the
world is a no-op. -/
theorem pocketBall_idempotent :
    ∀ s : Ball × Finset ℕ, pocketBall (pocketBall s) = pocketBall s := by
  intro s
  simp [pocketBall, Finset.erase_idem]

/-- Claim C1 (evaluation at the failing input): potting two colored balls
consecutively raises the advisory, but potting a red between two colored pots
raises it as well, because the red branch of handlePocketedBall never records
the red in lastPottedBalls, so the includes(red) test of the advisory can
never succeed.  The history after yellow, red, black is [yellow, black] and
the advisory fires on the final black. -/
theorem potHistory_red_not_recorded :
    runPots [BallType.yellow, BallType.black] = ([BallType.yellow, BallType.black], true)
    ∧ runPots [BallType.yellow, BallType.red, BallType.black]
        = ([BallType.yellow, BallType.black], true) := by
  constructor <;> rfl

/-- Claim C2 counterexample: one deceleration step applied to a non-pocketed
ball of speed 0.0501 yields a ball whose speed is strictly below 0.05 but
whose velocity is not zero — the snap-to-rest branch only runs when the speed
at the start of the step is already at most 0.05. -/
theorem decel_below_threshold_residual_velocity :
    sqNorm (applyProfessionalDeceleration slowRollingBall).vel < (0.05 : ℚ) ^ 2
    ∧ (applyProfessionalDeceleration slowRollingBall).vel ≠ ⟨0, 0⟩ := by
  constructor <;>
    norm_num [applyProfessionalDeceleration, slowRollingBall, sqNorm,
      max_def, min_def, Vec.mk.injEq]

/-- Claim C2 as amended: if a non-pocketed ball enters the deceleration step
with speed positive and at most 0.05 (squared speed in (0, 0.05^2]), the step
sets its velocity and angular velocity to exactly zero. -/
theorem decel_snaps_to_rest (b : Ball) (hp : b.isPocketed = false)
    (h0 : 0 < sqNorm b.vel) (h5 : sqNorm b.vel ≤ (0.05 : ℚ) ^ 2) :
    (applyProfessionalDeceleration b).vel = ⟨0, 0⟩
    ∧ (applyProfessionalDeceleration b).angVel = 0 := by
  have hng : ¬(sqNorm b.vel > (0.05 : ℚ) ^ 2) := not_lt.mpr h5
  simp [applyProfessionalDeceleration, hp, hng, h0, h5]

theorem decel_snaps_to_rest_witness :
    (applyProfessionalDeceleration restingBall).vel = ⟨0, 0⟩
    ∧ (applyProfessionalDeceleration restingBall).angVel = 0 :=
  decel_snaps_to_rest restingBall rfl
    (by norm_num [restingBall, sqNorm])
    (by norm_num [restingBall, sqNorm])

/-- Claim C10 counterexample: a single non-pocketed ball with speed 0.07 is
reported moving by the game-loop gate (threshold 0.05) but not by the cue
controller gate (threshold 0.1), so the two predicates are not equivalent. -/
theorem moving_gates_disagree :
    isAnyBallMoving [slowBall10] = true
    ∧ cueIsAnyBallMoving [slowBall10] = false := by
  constructor <;>
    norm_num [isAnyBallMoving, cueIsAnyBallMoving, isMoving, sqNorm, slowBall10]

/-- Claim C10 as amended: the cue controller gate implies the game-loop gate,
and the two gates agree on every collection in which no non-pocketed ball has
speed strictly between 0.05 and 0.1 (inclusive on the right) — the
counterexample regime. -/
theorem moving_gates_relation (ballsList : List Ball) :
    (cueIsAnyBallMoving ballsList = true → isAnyBallMoving ballsList = true)
    ∧ ((∀ b ∈ ballsList, b.isPocketed = false →
          ¬((0.05 : ℚ) ^ 2 < sqNorm b.vel ∧ sqNorm b.vel ≤ (0.1 : ℚ) ^ 2)) →
        cueIsAnyBallMoving ballsList = isAnyBallMoving ballsList) := by
  constructor
  · intro h
    simp only [cueIsAnyBallMoving, List.any_eq_true] at h
    obtain ⟨b, hb, hcond⟩ := h
    by_cases hp : b.isPocketed
    · simp [hp] at hcond
    · simp [hp] at hcond
      simp only [isAnyBallMoving, List.any_eq_true]
      refine ⟨b, hb, ?_⟩
      simp only [Bool.and_eq_true, Bool.not_eq_true', isMoving, decide_eq_true_eq]
      refine ⟨by simp [hp], ?_⟩
      nlinarith [hcond]
  · intro hgap
    apply list_any_congr
    intro b hb
    by_cases hp : b.isPocketed
    · simp [hp]
    · have hb2 := hgap b hb (by simp [hp])
      by_cases hs : sqNorm b.vel > (0.1 : ℚ) ^ 2
      · have hs05 : sqNorm b.vel > (0.05 : ℚ) ^ 2 := by nlinarith
        simp [hp, isMoving, hs, hs05]
      · have h1 : ¬(sqNorm b.vel > (0.05 : ℚ) ^ 2) := by
          intro hgt
          exact hb2 ⟨hgt, not_lt.mp hs⟩
        simp [hp, isMoving, hs, h1]

theorem moving_gates_relation_witness :
    isAnyBallMoving [fastBall10] = true :=
  (moving_gates_relation [fastBall10]).1
    (by norm_num [cueIsAnyBallMoving, sqNorm, fastBall10])

end Snooker
